import Mathlib

/-!
# Verification of `jquery.websheet.js`

A shallow embedding of the websheet form controller
(`src/jquery.websheet.js`) together with proofs about its value parser,
URL builder, sort engine, header-click state machine and get/set-state
protocol.

Modelling conventions:
* JavaScript numbers are modelled exactly as rationals (`ℚ`); `NaN` and an
  `Invalid Date` are modelled as `none : Option ℚ`.  IEEE rounding is not
  modelled; it is irrelevant to the orderings and equalities at issue.
* Strings are Lean `String`s; character-level operations work on `List Char`.
* DOM state touched by the handlers (the `last_submit` property, the result
  `div`, the header sort markers) is carried explicitly in small structures.
-/

namespace Websheet

/-! ## Character and numeric primitives -/

/-- Decimal digit, as in the character classes `[0-9...]` of the source. -/
def jsIsDigit (c : Char) : Bool := '0' ≤ c && c ≤ '9'

/-- ASCII alphanumeric, as in the source's `[a-zA-Z0-9]` classes. -/
def jsIsAlnum (c : Char) : Bool :=
  jsIsDigit c || ('a' ≤ c && c ≤ 'z') || ('A' ≤ c && c ≤ 'Z')

/-- Value of a digit run. -/
def digitsToNat (cs : List Char) : Nat :=
  cs.foldl (fun n c => 10 * n + (c.toNat - '0'.toNat)) 0

/-- The decimal-literal fragment of ECMAScript number parsing:
`Digits ['.' Digits?] | '.' Digits`, longest match, returning the value and
the unconsumed suffix.  Exponents, `Infinity` and hex forms cannot occur in
the strings this development feeds to it (the source strips every character
outside `[0-9.+-]` first), so they are not modelled. -/
def parseDec (cs : List Char) : Option (ℚ × List Char) :=
  let intPart := cs.takeWhile jsIsDigit
  let rest := cs.dropWhile jsIsDigit
  if intPart.isEmpty then
    match rest with
    | '.' :: r2 =>
        let frac := r2.takeWhile jsIsDigit
        if frac.isEmpty then none
        else some (mkRat (digitsToNat frac) (10 ^ frac.length),
                   r2.dropWhile jsIsDigit)
    | _ => none
  else
    match rest with
    | '.' :: r2 =>
        let frac := r2.takeWhile jsIsDigit
        some (mkRat (digitsToNat intPart * 10 ^ frac.length + digitsToNat frac)
                (10 ^ frac.length),
              r2.dropWhile jsIsDigit)
    | _ => some (mkRat (digitsToNat intPart) 1, rest)

/-- Optional single leading sign, then a decimal literal. -/
def parseSigned : List Char → Option (ℚ × List Char)
  | '+' :: cs => parseDec cs
  | '-' :: cs => (parseDec cs).map (fun p => (Rat.neg p.1, p.2))
  | cs => parseDec cs

/-- Model of JavaScript `parseFloat`: skip leading whitespace, parse the
longest numeric prefix; `none` models the `NaN` result. -/
def parseFloatQ (s : String) : Option ℚ :=
  (parseSigned (s.toList.dropWhile Char.isWhitespace)).map (·.1)

/-- JavaScript `String.prototype.replace` with a one-character string
pattern, as in the source's `src.replace(',', '.')`: only the FIRST
occurrence is replaced. -/
def jsReplaceFirstChar : List Char → Char → Char → List Char
  | [], _, _ => []
  | c :: cs, pat, rep =>
      if c = pat then rep :: cs else c :: jsReplaceFirstChar cs pat rep

/-- The `/[^0-9\.+\-]/g` strip applied by `stringToFloat`. -/
def stripNonFloat (cs : List Char) : List Char :=
  cs.filter (fun c => jsIsDigit c || c = '.' || c = '+' || c = '-')

/-- `stringToFloat` (src/jquery.websheet.js lines 140-147).  Under `'fr'`
the first comma is turned into a period before stripping; then the result
is handed to `parseFloat`.  `none` models `NaN`. -/
def stringToFloat (src : String) (lang : String) : Option ℚ :=
  match lang with
  | "fr" => parseFloatQ (String.mk (stripNonFloat (jsReplaceFirstChar src.toList ',' '.')))
  | _ => parseFloatQ (String.mk (stripNonFloat src.toList))

/-- ECMAScript `ToNumber` on the strings that can reach the numeric
comparator: the trimmed empty string is `0`, otherwise the whole trimmed
string must be a signed decimal literal (`none` models `NaN`; hex forms,
`Infinity` and exponents are out of scope as above). -/
def jsStringToNumber (s : String) : Option ℚ :=
  let t := ((s.toList.dropWhile Char.isWhitespace).reverse.dropWhile
              Char.isWhitespace).reverse
  if t.isEmpty then some 0
  else
    match parseSigned t with
    | some (q, []) => some q
    | _ => none

/-! ## Rows and the sort engine -/

/-- A value stored in a row's `__data` array by the success handler
(lines 306-331): a boolean for `bool` columns, a float (`none` = `NaN`)
for `number`/`amount`, a `Date` (`none` = `Invalid Date`, `some t` = its
time value) for `date`, and a trimmed string otherwise. -/
inductive JSValue where
  | bool (b : Bool)
  | num (q : Option ℚ)
  | date (t : Option ℚ)
  | str (s : String)
deriving DecidableEq

/-- Numeric coercion performed by the subtraction in the numeric
comparator: booleans become 0/1, dates their time value, `NaN` stays
`NaN`. -/
def JSValue.toNumber : JSValue → Option ℚ
  | .bool b => some (if b then 1 else 0)
  | .num q => q
  | .date t => t
  | .str s => jsStringToNumber s

/-- A `tbody` row, reduced to the `__data` array the comparators read. -/
structure Row where
  data : List JSValue
deriving DecidableEq

/-- `__data[colIndex]` coerced to a number; a missing cell is `undefined`,
whose coercion is `NaN` (`none`). -/
def numKey (r : Row) (col : Nat) : Option ℚ :=
  (r.data.get? col).bind JSValue.toNumber

/-- `__data[colIndex].toUpperCase().toString()` for the text comparator.
Lean's `Char.toUpper` covers the ASCII fragment of `toUpperCase`.  On a
non-string value the source would throw (only strings have
`toUpperCase`); that case is unreachable for materialized rows and is
modelled as the empty string. -/
def strKey (r : Row) (col : Nat) : String :=
  match r.data.get? col with
  | some (.str s) => String.mk (s.toList.map Char.toUpper)
  | _ => ""

/-- Sign of `a - b` as seen by `Array.prototype.sort`: a `NaN` difference
is neither `< 0` nor `> 0`, so it acts as a tie. -/
def numCompare (a b : Option ℚ) : Ordering :=
  match a, b with
  | some x, some y => compare x y
  | _, _ => .eq

/-- The default branch of `sortTable`'s comparator: `1` when `as > bs`,
`-1` when `as < bs`, else `0` (string comparison on code units). -/
def strCompare (a b : String) : Ordering :=
  if a > b then .gt else if a < b then .lt else .eq

/-- The comparator selected by `sortTable`'s `switch (sortType)`
(lines 160-179): the subtraction comparator for `bool`, `number`,
`amount` and `date`, the upper-cased string comparator otherwise. -/
def rowCompare (sortType : String) (col : Nat) (a b : Row) : Ordering :=
  match sortType with
  | "bool" | "number" | "amount" | "date" => numCompare (numKey a col) (numKey b col)
  | _ => strCompare (strKey a col) (strKey b col)

/-- "`a` need not come after `b`" — the order a stable sort realises from
the comparator. -/
def rowLE (sortType : String) (col : Nat) (a b : Row) : Prop :=
  rowCompare sortType col a b ≠ .gt

instance (k : String) (c : Nat) : DecidableRel (rowLE k c) :=
  fun a b => inferInstanceAs (Decidable (rowCompare k c a b ≠ .gt))

/-- `sortTable` (lines 150-184): detach the rows, stable-sort them by the
selected comparator, reverse the array if `descending`, re-append.
`Array.prototype.sort` is required by ECMAScript to be stable and is
modelled by insertion sort, a conforming stable sort. -/
def sortTable (rows : List Row) (colIndex : Nat) (descending : Bool)
    (sortType : String) : List Row :=
  let sorted := List.insertionSort (rowLE sortType colIndex) rows
  if descending then sorted.reverse else sorted

/-! ## URL builder (the submit handler, lines 218-246) -/

/-- `nameRegex = /[^a-zA-Z0-9]+/g`: CGI names are reduced to `[a-zA-Z0-9]`. -/
def nameSan (s : String) : String := String.mk (s.toList.filter jsIsAlnum)

/-- `valueRegex = /[:+\/#?]+/g`: values are stripped of `[:+/#?]`. -/
def valueSan (s : String) : String :=
  String.mk (s.toList.filter
    (fun c => !(c = ':' || c = '+' || c = '/' || c = '#' || c = '?')))

/-- `base_url.slice(-1)`: the last character, if any. -/
def lastChar (s : String) : Option Char := s.toList.getLast?

/-- Lines 218-220: a trailing slash is appended to `data-source` only when
its last character is not already a slash
(`if (base_url.slice(-1) !== '/') { base_url = base_url + '/'; }`). -/
def normalizeBase (s : String) : String :=
  if lastChar s = some '/' then s else s ++ "/"

/-- `splitter = /([^a-zA-Z0-9]+)/` used as `format.split(splitter)`: the
template decomposes into alternating (possibly empty) alphanumeric chunks
and captured separator runs, exactly as JavaScript `String.split` with a
capturing group returns them.  The accumulator holds the current run
reversed; `inWord` says which kind of run is being collected. -/
def splitFormatAux : List Char → List Char → Bool → List String
  | [], acc, inWord =>
      if inWord then [String.mk acc.reverse] else [String.mk acc.reverse, ""]
  | c :: cs, acc, inWord =>
      if jsIsAlnum c = inWord then splitFormatAux cs (c :: acc) inWord
      else String.mk acc.reverse :: splitFormatAux cs [c] (!inWord)

/-- `"…".split(/([^a-zA-Z0-9]+)/)` on the `data-filename-format` value. -/
def splitFormat (s : String) : List String := splitFormatAux s.toList [] true

/-- `fieldsObj[k]` after the `$.each` loop assigned every serialized field:
the last assignment to a name wins. -/
def lookupLast : List (String × String) → String → Option String
  | [], _ => none
  | (n, v) :: rest, k =>
      match lookupLast rest k with
      | some w => some w
      | none => if k = n then some v else none

/-- `name.substr(0,1) === '_'`: the first character is an underscore. -/
def underscoreFirst (s : String) : Bool :=
  match s.toList with
  | '_' :: _ => true
  | _ => false

/-- `field.value && field.name.substr(0,1) !== '_'`: a field contributes a
path segment only when its value is non-empty (truthy) and its name does
not start with an underscore. -/
def segKeep (f : String × String) : Bool :=
  (f.2 != "") && !(underscoreFirst f.1)

/-- One `name:value/` segment. -/
def segString (f : String × String) : String :=
  nameSan f.1 ++ ":" ++ valueSan f.2 ++ "/"

/-- Lines 239-245: each template token is looked up among the submitted
fields; a match contributes the value-sanitized field value, a miss is
kept literally. -/
def wsRenderToken (fields : List (String × String)) (t : String) : String :=
  match lookupLast fields t with
  | some v => valueSan v
  | none => t

/-- The URL accumulation of the submit handler, given the already
normalized base, the serialized fields in form order and the split
filename template. -/
def wsBuildUrl (base : String) (fields : List (String × String))
    (format : List String) : String :=
  let u1 := fields.foldl
    (fun url f => if segKeep f then url ++ segString f else url) base
  let u2 := format.foldl (fun url t => url ++ wsRenderToken fields t) u1
  u2 ++ ".xls"

/-- The full fetch URL for one submission: `data-source` normalized at
initialization, then the submit handler's accumulation, then `.xls`. -/
def wsSubmitUrl (dataSource : String) (fields : List (String × String))
    (filenameFormat : String) : String :=
  wsBuildUrl (normalizeBase dataSource) fields (splitFormat filenameFormat)

/-! ### The claim's reading of the URL (spec section 4.2) -/

/-- Concatenation of a list of strings. -/
def strConcat : List String → String
  | [] => ""
  | s :: rest => s ++ strConcat rest

/-- A word-like template token: a non-empty alphanumeric run (the
non-separator chunks of the template split). -/
def isWordLike (t : String) : Bool := (t != "") && t.toList.all jsIsAlnum

/-- Modelled from the spec's words: strip ALL trailing slashes, then add
exactly one ("normalized to exactly one trailing slash"). -/
def specExactlyOneSlash (s : String) : String :=
  String.mk (s.toList.reverse.dropWhile (fun c => c = '/')).reverse ++ "/"

/-- Modelled from the spec's words: only word-like tokens are substituted
("each word-like token replaced by the matching field's sanitized
value"); separators stay literal. -/
def specRenderToken (fields : List (String × String)) (t : String) : String :=
  if isWordLike t then
    match lookupLast fields t with
    | some v => valueSan v
    | none => t
  else t

/-- The fetch URL exactly as claim C4 words it: base with exactly one
trailing slash, one sanitized segment per kept field in form order, the
resolved filename, `.xls`. -/
def specFetchUrlStrict (base : String) (fields : List (String × String))
    (fmt : String) : String :=
  specExactlyOneSlash base
    ++ strConcat ((fields.filter segKeep).map segString)
    ++ strConcat ((splitFormat fmt).map (specRenderToken fields))
    ++ ".xls"

/-- The amended reading: identical except that the base only gains a
trailing slash when it has none. -/
def specFetchUrl (base : String) (fields : List (String × String))
    (fmt : String) : String :=
  normalizeBase base
    ++ strConcat ((fields.filter segKeep).map segString)
    ++ strConcat ((splitFormat fmt).map (specRenderToken fields))
    ++ ".xls"

/-! ## Per-instance configuration (lines 186-207) -/

/-- The option object documented in the file header.  `failed` is listed
among the documented options (with default "An error occured while
attempting to load data."). -/
structure Args where
  lang : Option String := none
  init_sort_col : Option Nat := none
  init_sort_desc : Option Bool := none
  dl_title : Option String := none
  loading : Option String := none
  failed : Option String := none
deriving DecidableEq

/-- The effective per-instance configuration. -/
structure Config where
  lang : String
  init_sort_col : Nat
  init_sort_desc : Bool
  dl_title : String
  loading : String
  failed : String
deriving DecidableEq

/-- The default failure markup hardcoded at line 193. -/
def defaultFailed : String := "An error occured while attempting to load data."

/-- The defaults of lines 186-199. -/
def defaultConfig : Config :=
  ⟨"en", 0, false, "Download spreadsheet", "Loading...", defaultFailed⟩

/-- The `if (args) { if (args.lang) … }` block (lines 200-207).  Each
recognised option overrides its default when truthy.  Note the source
copies `lang`, `init_sort_col`, `init_sort_desc`, `dl_title`, `loading`
and `callback` — but never `args.failed`, so the configured failure
markup is silently dropped. -/
def parseArgs : Option Args → Config
  | none => defaultConfig
  | some a =>
      { defaultConfig with
        lang := match a.lang with
          | some s => if s = "" then defaultConfig.lang else s
          | none => defaultConfig.lang
        init_sort_col := match a.init_sort_col with
          | some n => if n = 0 then defaultConfig.init_sort_col else n
          | none => defaultConfig.init_sort_col
        init_sort_desc := match a.init_sort_desc with
          | some b => if b then b else defaultConfig.init_sort_desc
          | none => defaultConfig.init_sort_desc
        dl_title := match a.dl_title with
          | some s => if s = "" then defaultConfig.dl_title else s
          | none => defaultConfig.dl_title
        loading := match a.loading with
          | some s => if s = "" then defaultConfig.loading else s
          | none => defaultConfig.loading }

/-! ## Success and error handlers, stored state -/

/-- A table of the fetched document, reduced to what the handlers read:
the first header row's cell texts and the body rows' cell texts. -/
structure STable where
  headerTexts : List String
  body : List (List String)
deriving DecidableEq

/-- A fetched document: the list of `table` elements found in it. -/
structure Doc where
  tables : List STable
deriving DecidableEq

/-- What the result `div` shows. -/
inductive DivContent where
  | html (s : String)
  | tableView (t : STable) (sortCol : Nat) (sortDesc : Bool)
  | empty
deriving DecidableEq

/-- Controller state owned per form instance: the `last_submit` property,
the displayed content, and the `__websheet_sort_col/_desc/_title`
properties. -/
structure WsState where
  lastSubmit : List (String × String)
  display : DivContent
  sortState : Option (Nat × Bool × String)
deriving DecidableEq

/-- Initialization (line 221): `form.prop('last_submit', {})`, an empty
result `div`, no stored sort. -/
def initState : WsState := ⟨[], DivContent.empty, none⟩

/-- The `getState` handler (lines 381-383): return the stored
`last_submit` object, not the live inputs. -/
def getState (st : WsState) : List (String × String) := st.lastSubmit

/-- The error callback (lines 340-342): `div.html(failed)`. -/
def wsError (cfg : Config) (st : WsState) : WsState :=
  { st with display := DivContent.html cfg.failed }

/-- The loop of lines 283-287, which decides the sort to apply: starting
from the configured initial sort, scan the header cells; when the stored
column index equals a header's position AND the stored title equals that
header's text, switch to the stored sort. -/
def resolveSortAux (stored : Option (Nat × Bool × String)) :
    Nat → List String → Nat × Bool → Nat × Bool
  | _, [], acc => acc
  | i, h :: rest, acc =>
      let acc' := match stored with
        | some (c, d, t) => if c = i ∧ t = h then (c, d) else acc
        | none => acc
      resolveSortAux stored (i + 1) rest acc'

/-- The sort selected on a fresh materialization. -/
def resolveSort (initCol : Nat) (initDesc : Bool)
    (stored : Option (Nat × Bool × String)) (headers : List String) :
    Nat × Bool :=
  resolveSortAux stored 0 headers (initCol, initDesc)

/-- The success callback (lines 254-338), at the granularity of the
stored state: `last_submit` is overwritten with the submitted fields
FIRST (line 267); then the first table of the response is looked up.
When the document has no table, every remaining jQuery call operates on
an empty set: the `div` is emptied and nothing is appended, so the user
sees empty content.  When a table exists it is displayed with the sort
resolved from the stored sort state against the fresh headers. -/
def wsSuccess (cfg : Config) (fieldsObj : List (String × String))
    (doc : Doc) (st : WsState) : WsState :=
  let st1 := { st with lastSubmit := fieldsObj }
  match doc.tables with
  | [] => { st1 with display := DivContent.empty }
  | t :: _ =>
      let sc := resolveSort cfg.init_sort_col cfg.init_sort_desc
                  st.sortState t.headerTexts
      { st1 with display := DivContent.tableView t sc.1 sc.2 }

/-! ## Header-click state machine (lines 290-304) -/

/-- The asc/desc markers on the header cells: `none` = no class,
`some false` = class `asc`, `some true` = class `desc`. -/
def Markers := List (Option Bool)

/-- One header click (lines 290-304).  `wasInit` is
`$(this).hasClass(init_sort_desc ? 'desc' : 'asc')`; the new direction is
`wasInit !== init_sort_desc`; all markers are cleared and the clicked
header is marked with the new direction.  Returns the new markers and
the `newDesc` passed to `sortTable`. -/
def clickHeader (initDesc : Bool) (markers : List (Option Bool)) (i : Nat) :
    List (Option Bool) × Bool :=
  let wasInit : Bool := decide (markers.get? i = some (some initDesc))
  let newDesc : Bool := wasInit != initDesc
  ((markers.map (fun _ => none)).set i (some newDesc), newDesc)

/-- How many headers carry an asc/desc marker. -/
def countMarked (m : List (Option Bool)) : Nat :=
  (m.filter Option.isSome).length

/-! ## The setState handler (lines 349-380) -/

/-- An input or select element of the form: its `name`, its current
value, and whether it carries the reserved exclusion class
`__widget_field`. -/
structure FormInput where
  name : String
  val : String
  widgetField : Bool
deriving DecidableEq

/-- `data[k]` on the patch object (keys are unique in a JS object). -/
def jsGet (data : List (String × String)) (k : String) : Option String :=
  (data.find? (fun e => e.1 == k)).map (·.2)

/-- `delete data[k]`. -/
def jsDelete (data : List (String × String)) (k : String) :
    List (String × String) :=
  data.filter (fun e => e.1 != k)

/-- The `inputs.each` loop (lines 356-366): for each non-excluded field
whose name is a key of the patch AND whose patched value differs from
the current value, update the field, set `changed`, and delete the key.
A key whose value equals the field's current value fails the third
conjunct, so the body — including the `delete` — is skipped. -/
def setStateInputs : List FormInput → List (String × String) → Bool →
    List FormInput × List (String × String) × Bool
  | [], data, changed => ([], data, changed)
  | inp :: rest, data, changed =>
      if !inp.widgetField && (jsGet data inp.name).isSome
          && (jsGet data inp.name != some inp.val) then
        let v := (jsGet data inp.name).getD inp.val
        let r := setStateInputs rest (jsDelete data inp.name) true
        ({ inp with val := v } :: r.1, r.2.1, r.2.2)
      else
        let r := setStateInputs rest data changed
        (inp :: r.1, r.2.1, r.2.2)

/-- Result of one `setState` call. -/
structure SetStateOut where
  inputs : List FormInput
  hiddens : List (String × String)
  changed : Bool
deriving DecidableEq

/-- The `setState` handler (lines 349-380) for a form without nested
`__widget_form` children (the delegation loop then runs zero times):
clear the hidden-field span, run the consumption loop over the inputs,
then materialize every key still in the patch as a hidden input, each
one setting `changed`.  The final `$(this).submit()` re-enters the fetch
pipeline and does not affect the returned data. -/
def setState (inputs : List FormInput) (data : List (String × String)) :
    SetStateOut :=
  let r := setStateInputs inputs data false
  ⟨r.1, r.2.1, r.2.2 || !r.2.1.isEmpty⟩

/-! ## Theorems -/

/-- C2 counterexample: under locale `fr` the source turns `"1,234.50"`
into `"1.234.50"` (only the first comma is replaced — and the comma is a
decimal separator under `fr` anyway), and `parseFloat` stops at the
second period, so the parse does NOT return 1234.50 (= 2469/2) as the
claim states. -/
theorem stringToFloat_fr_not_spec_value :
    stringToFloat "1,234.50" "fr" ≠ some (mkRat 2469 2) := by decide

/-- C2 (amended): for the number/amount kind under locale `fr`, the
parser replaces the first comma with a period and strips every character
outside `[0-9+\-.]` before parsing; `parse("1,234.50", number, fr)`
therefore returns 1.234 (= 617/500), the prefix of `"1.234.50"` that
`parseFloat` accepts. -/
theorem stringToFloat_fr_example_eval :
    stringToFloat "1,234.50" "fr" = some (mkRat 617 500)
      ∧ mkRat 617 500 = (617 : ℚ) / 500 := by
  constructor
  · decide
  · norm_num [Rat.mkRat_eq_div]

/-- C1: evaluating the `setState` handler at the failing input.  The form
has one non-excluded input `a` whose current value is `"1"`; the patch is
`a: "1"`.  Because the `delete` sits inside the value-differs
conditional, the equal-valued key is NOT consumed: it survives into the
hidden-field loop, is materialized as a synthetic hidden input `a=1`,
and forces the returned `changed` flag to `true` — contradicting both
the claim and the file's own header documentation ("it will remove them
from the object", "returns TRUE if anything has changed, FALSE
otherwise"). -/
theorem setState_equal_value_key_not_consumed :
    setState [⟨"a", "1", false⟩] [("a", "1")]
      = ⟨[⟨"a", "1", false⟩], [("a", "1")], true⟩ := by decide

/-- C9: evaluating the configuration path at the failing input.  The
args-parsing block (lines 200-207) copies `lang`, `init_sort_col`,
`init_sort_desc`, `dl_title`, `loading` and `callback` but never
`args.failed`, so whatever failure markup the caller configures, the
effective configuration keeps the built-in default text, and that is
what the error callback displays.  A response without a table never
shows failure markup at all: the success callback empties the display
(see `wsSuccess`). -/
theorem configured_failed_markup_never_used :
    (∀ a : Args, (parseArgs (some a)).failed = defaultFailed)
      ∧ (∀ (cfg : Config) (st : WsState),
          (wsError cfg st).display = DivContent.html cfg.failed)
      ∧ (parseArgs (some { failed := some "CUSTOM" })).failed ≠ "CUSTOM"
      ∧ (wsSuccess (parseArgs (some { failed := some "CUSTOM" }))
            [("year", "2020")] ⟨[]⟩ initState).display
          ≠ DivContent.html "CUSTOM" := by
  refine ⟨fun a => rfl, fun _ _ => rfl, by decide, by decide⟩

/-- C10: at initialization (line 221) the controller stores an empty
`last_submit` object, and the `getState` handler returns exactly that
stored object — not an error and not the live input values (which it
never reads).  A failed fetch does not change it either. -/
theorem getState_initial_empty :
    getState initState = []
      ∧ (∀ (cfg : Config) (st : WsState),
          getState (wsError cfg st) = getState st) :=
  ⟨rfl, fun _ _ => rfl⟩

/-- C3 counterexample: a fetch whose response contains no table.  The
success callback has already overwritten `last_submit` with the newly
submitted fields (line 267 runs before the table lookup), so the stored
FormState is NOT left unchanged; and the display is emptied, so the
failure markup is NOT shown. -/
theorem noTable_commits_state_and_shows_no_failure :
    (wsSuccess defaultConfig [("year", "2020")] ⟨[]⟩
        ⟨[("old", "1")], DivContent.html "Loading...", none⟩).lastSubmit
      ≠ (⟨[("old", "1")], DivContent.html "Loading...", none⟩ : WsState).lastSubmit
    ∧ (wsSuccess defaultConfig [("year", "2020")] ⟨[]⟩
        ⟨[("old", "1")], DivContent.html "Loading...", none⟩).display
      ≠ DivContent.html defaultConfig.failed := by decide

/-- C3 (amended): whenever a fetched document contains no table element,
the success path still runs to completion: the stored FormState is
overwritten with the submitted fields, and the loading indicator is
replaced by empty content rather than by the failure markup — no
`NoTableFound` failure is surfaced. -/
theorem noTable_success_path (cfg : Config) (fields : List (String × String))
    (doc : Doc) (st : WsState) (h : doc.tables = []) :
    (wsSuccess cfg fields doc st).lastSubmit = fields
      ∧ (wsSuccess cfg fields doc st).display = DivContent.empty
      ∧ (wsSuccess cfg fields doc st).display ≠ DivContent.html cfg.failed := by
  obtain ⟨tables⟩ := doc
  subst h
  exact ⟨rfl, rfl, by simp [wsSuccess]⟩

/-- Witness for `noTable_success_path` at a concrete no-table fetch. -/
theorem noTable_success_path_witness :
    (⟨[]⟩ : Doc).tables = []
      ∧ ((wsSuccess defaultConfig [("a", "1")] ⟨[]⟩ initState).lastSubmit
            = [("a", "1")]
          ∧ (wsSuccess defaultConfig [("a", "1")] ⟨[]⟩ initState).display
            = DivContent.empty
          ∧ (wsSuccess defaultConfig [("a", "1")] ⟨[]⟩ initState).display
            ≠ DivContent.html defaultConfig.failed) :=
  ⟨rfl, noTable_success_path defaultConfig [("a", "1")] ⟨[]⟩ initState rfl⟩

/-- C5: for every row set, column index and kind, the descending sort is
exactly the array reversal of the ascending sort of the same rows (the
source applies `rows.reverse()` AFTER the one comparator-driven sort,
it never uses a reversed comparator), and the ascending sort is stable:
a pair of rows that the column's comparator ties keeps its original
relative order in the ascending result. -/
theorem sortTable_descending_reverse_and_stable
    (rows : List Row) (col : Nat) (kind : String) :
    sortTable rows col true kind = (sortTable rows col false kind).reverse
      ∧ ∀ a b : Row, [a, b].Sublist rows → rowCompare kind col a b = .eq →
          [a, b].Sublist (sortTable rows col false kind) := by
  constructor
  · rfl
  · intro a b hsub htie
    have hle : rowLE kind col a b := by
      intro hgt
      rw [htie] at hgt
      cases hgt
    simpa [sortTable] using List.pair_sublist_insertionSort hle hsub

/-- Witness for `sortTable_descending_reverse_and_stable`: three rows in
a `number` column where the first and third rows tie at value 2; the
tied pair keeps its order in the ascending result. -/
theorem sortTable_stable_witness :
    [(⟨[JSValue.num (some (mkRat 2 1)), JSValue.str "first"]⟩ : Row),
        ⟨[JSValue.num (some (mkRat 2 1)), JSValue.str "second"]⟩].Sublist
      (sortTable
        [⟨[JSValue.num (some (mkRat 2 1)), JSValue.str "first"]⟩,
         ⟨[JSValue.num (some (mkRat 1 1))]⟩,
         ⟨[JSValue.num (some (mkRat 2 1)), JSValue.str "second"]⟩]
        0 false "number") :=
  (sortTable_descending_reverse_and_stable
      [⟨[JSValue.num (some (mkRat 2 1)), JSValue.str "first"]⟩,
       ⟨[JSValue.num (some (mkRat 1 1))]⟩,
       ⟨[JSValue.num (some (mkRat 2 1)), JSValue.str "second"]⟩]
      0 "number").2
    ⟨[JSValue.num (some (mkRat 2 1)), JSValue.str "first"]⟩
    ⟨[JSValue.num (some (mkRat 2 1)), JSValue.str "second"]⟩
    (by decide) (by decide)

/-- C6: under the `bool`/`number`/`amount`/`date` comparator a malformed
value (a `NaN` number, an invalid date, a missing cell — anything whose
numeric key is `none`) ties with every row in both comparison
directions, and `sortTable` is total on such row sets: it always returns
a permutation of its input (the embedding of "sorting never throws"). -/
theorem numeric_comparator_malformed_ties
    (kind : String)
    (hkind : kind = "bool" ∨ kind = "number" ∨ kind = "amount" ∨ kind = "date")
    (col : Nat) (a b : Row) (ha : numKey a col = none) :
    rowCompare kind col a b = .eq
      ∧ rowCompare kind col b a = .eq
      ∧ ∀ (rows : List Row) (desc : Bool),
          (sortTable rows col desc kind).Perm rows := by
  have hnum : ∀ x y : Row, numKey x col = none →
      rowCompare kind col x y = .eq ∧ rowCompare kind col y x = .eq := by
    intro x y hx
    rcases hkind with h | h | h | h <;> subst h <;>
      simp only [rowCompare, numCompare, hx] <;>
      constructor <;> (first | rfl | (cases hk : numKey y col <;> simp [hk]))
  refine ⟨(hnum a b ha).1, (hnum a b ha).2, ?_⟩
  intro rows desc
  have hperm := List.perm_insertionSort (rowLE kind col) rows
  unfold sortTable
  cases desc
  · simpa using hperm
  · simpa using (List.reverse_perm _).trans hperm

/-- Witness for `numeric_comparator_malformed_ties`: a `NaN` cell under
the `number` kind ties with a well-formed value in both directions, and
sorting a small row set containing it returns a permutation. -/
theorem numeric_comparator_malformed_ties_witness :
    ((("number" : String) = "bool" ∨ ("number" : String) = "number"
        ∨ ("number" : String) = "amount" ∨ ("number" : String) = "date")
      ∧ numKey ⟨[JSValue.num none]⟩ 0 = none)
    ∧ (rowCompare "number" 0 ⟨[JSValue.num none]⟩ ⟨[JSValue.num (some (mkRat 5 1))]⟩ = .eq
      ∧ rowCompare "number" 0 ⟨[JSValue.num (some (mkRat 5 1))]⟩ ⟨[JSValue.num none]⟩ = .eq
      ∧ ∀ (rows : List Row) (desc : Bool),
          (sortTable rows 0 desc "number").Perm rows) :=
  ⟨⟨Or.inr (Or.inl rfl), rfl⟩,
    numeric_comparator_malformed_ties "number"
      (Or.inr (Or.inl rfl)) 0
      ⟨[JSValue.num none]⟩ ⟨[JSValue.num (some (mkRat 5 1))]⟩ rfl⟩

/-! ### Header-click lemmas -/

theorem countMarked_map_none (l : List (Option Bool)) :
    countMarked (l.map fun _ => none) = 0 := by
  simp [countMarked]

theorem countMarked_set_some (l : List (Option Bool)) :
    ∀ (i : Nat) (d : Bool), i < l.length →
      countMarked ((l.map fun _ => none).set i (some d)) = 1 := by
  induction l with
  | nil => intro i d h; simp at h
  | cons a t ih =>
      intro i d h
      cases i with
      | zero =>
          have h0 := countMarked_map_none t
          simp only [countMarked] at h0
          simp only [List.map_cons, List.set_cons_zero, countMarked,
            List.filter_cons, Option.isSome_some, List.length_cons, if_true]
          simp [h0]
      | succ j =>
          have hj : j < t.length := by
            simp only [List.length_cons] at h
            omega
          have ht := ih j d hj
          simpa [countMarked, List.filter_cons] using ht

theorem get?_lt_of_eq_some {α : Type} {l : List α} {i : Nat} {a : α}
    (h : l.get? i = some a) : i < l.length := by
  by_contra hc
  push_neg at hc
  rw [List.get?_eq_none.mpr hc] at h
  cases h

/-- What one header click produces when header `i` currently carries
marker `s`: the direction passed to `sortTable` is
`hasClass(init ? 'desc' : 'asc') !== init`, the clicked header ends up
as the only marked one, and it carries that direction. -/
theorem clickHeader_eval (initDesc : Bool) (m : List (Option Bool)) (i : Nat)
    (s : Option Bool) (h : m.get? i = some s) :
    (clickHeader initDesc m i).2 = (decide (s = some initDesc) != initDesc)
      ∧ (clickHeader initDesc m i).1.get? i
          = some (some (decide (s = some initDesc) != initDesc))
      ∧ (clickHeader initDesc m i).1.length = m.length
      ∧ countMarked (clickHeader initDesc m i).1 = 1 := by
  have hi : i < m.length := get?_lt_of_eq_some h
  have hd : (decide (m.get? i = some (some initDesc)) : Bool)
      = decide (s = some initDesc) := by
    rw [h]
    simp
  refine ⟨?_, ?_, ?_, ?_⟩
  · simp only [clickHeader, hd]
  · have hlen : i < (m.map fun _ => none : List (Option Bool)).length := by
      simpa using hi
    simp only [clickHeader, hd]
    rw [List.get?_eq_getElem?, List.getElem?_set_self hlen]
  · simp [clickHeader]
  · simpa only [clickHeader, hd] using
      countMarked_set_some m i (decide (s = some initDesc) != initDesc) hi

/-- C7: starting from any marker state in which header `i` is inactive
(for instance a freshly materialized table whose active marker sits on a
different header), three sequential clicks on header `i` invoke the sort
with directions `initialSortDescending`, `!initialSortDescending`,
`initialSortDescending` — that is `[ascending, descending, ascending]`
for the default `initialSortDescending = false` — and after every one
of the three clicks exactly one header carries an asc/desc marker. -/
theorem header_click_three_cycle (initDesc : Bool)
    (markers : List (Option Bool)) (i : Nat)
    (h : markers.get? i = some none) :
    ((clickHeader initDesc markers i).2,
      (clickHeader initDesc (clickHeader initDesc markers i).1 i).2,
      (clickHeader initDesc
        (clickHeader initDesc (clickHeader initDesc markers i).1 i).1 i).2)
        = (initDesc, !initDesc, initDesc)
      ∧ countMarked (clickHeader initDesc markers i).1 = 1
      ∧ countMarked (clickHeader initDesc (clickHeader initDesc markers i).1 i).1 = 1
      ∧ countMarked (clickHeader initDesc
          (clickHeader initDesc (clickHeader initDesc markers i).1 i).1 i).1 = 1 := by
  obtain ⟨e1, g1, l1, c1⟩ := clickHeader_eval initDesc markers i none h
  have d1 : (clickHeader initDesc markers i).2 = initDesc := by
    rw [e1]; cases initDesc <;> rfl
  have g1' : (clickHeader initDesc markers i).1.get? i = some (some initDesc) := by
    rw [g1]; cases initDesc <;> rfl
  obtain ⟨e2, g2, l2, c2⟩ :=
    clickHeader_eval initDesc (clickHeader initDesc markers i).1 i
      (some initDesc) g1'
  have d2 : (clickHeader initDesc (clickHeader initDesc markers i).1 i).2
      = !initDesc := by
    rw [e2]; cases initDesc <;> rfl
  have g2' : (clickHeader initDesc (clickHeader initDesc markers i).1 i).1.get? i
      = some (some (!initDesc)) := by
    rw [g2]; cases initDesc <;> rfl
  obtain ⟨e3, g3, l3, c3⟩ :=
    clickHeader_eval initDesc
      (clickHeader initDesc (clickHeader initDesc markers i).1 i).1 i
      (some (!initDesc)) g2'
  have d3 : (clickHeader initDesc
      (clickHeader initDesc (clickHeader initDesc markers i).1 i).1 i).2
      = initDesc := by
    rw [e3]; cases initDesc <;> rfl
  exact ⟨by rw [d1, d2, d3], c1, c2, c3⟩

/-- Witness for `header_click_three_cycle`: a two-header table whose
active marker is on header 0 (`asc`), clicking header 1 three times with
the default `initialSortDescending = false`. -/
theorem header_click_three_cycle_witness :
    ([some false, none] : List (Option Bool)).get? 1 = some none
      ∧ (((clickHeader false [some false, none] 1).2,
            (clickHeader false (clickHeader false [some false, none] 1).1 1).2,
            (clickHeader false
              (clickHeader false (clickHeader false [some false, none] 1).1 1).1 1).2)
            = (false, !false, false)
          ∧ countMarked (clickHeader false [some false, none] 1).1 = 1
          ∧ countMarked
              (clickHeader false (clickHeader false [some false, none] 1).1 1).1 = 1
          ∧ countMarked (clickHeader false
              (clickHeader false (clickHeader false [some false, none] 1).1 1).1 1).1
              = 1) :=
  ⟨rfl, header_click_three_cycle false [some false, none] 1 rfl⟩

/-! ### Sort-state reload -/

theorem resolveSortAux_none (headers : List String) :
    ∀ (i : Nat) (acc : Nat × Bool), resolveSortAux none i headers acc = acc := by
  induction headers with
  | nil => intro i acc; rfl
  | cons h t ih => intro i acc; simpa [resolveSortAux] using ih (i + 1) acc

theorem resolveSortAux_some (c : Nat) (d : Bool) (t : String) :
    ∀ (headers : List String) (i : Nat) (acc : Nat × Bool),
      resolveSortAux (some (c, d, t)) i headers acc
        = if i ≤ c ∧ headers[c - i]? = some t then (c, d) else acc := by
  intro headers
  induction headers with
  | nil =>
      intro i acc
      simp [resolveSortAux]
  | cons h rest ih =>
      intro i acc
      simp only [resolveSortAux]
      rw [ih (i + 1)]
      by_cases hci : c = i
      · subst hci
        have h1 : ¬ (c + 1 ≤ c) := by omega
        by_cases hth : t = h
        · subst hth
          simp [h1, Nat.sub_self]
        · have hth' : ¬ h = t := fun e => hth e.symm
          simp [h1, Nat.sub_self, hth, hth']
      · by_cases hic : i ≤ c
        · have hic1 : i + 1 ≤ c := by omega
          have hsub : c - i = (c - (i + 1)) + 1 := by omega
          have hget : (h :: rest)[c - i]? = rest[c - (i + 1)]? := by
            rw [hsub]
            simp
          simp [hci, hic, hic1, hget]
        · have h2 : ¬ (i + 1 ≤ c) := by omega
          simp [hci, hic, h2]

/-- C8: on a table reload the stored sort is reapplied exactly when the
freshly materialized header list has, at the stored column index, a
header whose text equals the stored header label; in every other case
(including the first load, when nothing is stored) the configured
initial sort is used. -/
theorem resolveSort_reapplied_iff (initCol : Nat) (initDesc : Bool)
    (c : Nat) (d : Bool) (t : String) (headers : List String) :
    resolveSort initCol initDesc (some (c, d, t)) headers
        = (if headers[c]? = some t then (c, d) else (initCol, initDesc))
      ∧ resolveSort initCol initDesc none headers = (initCol, initDesc) := by
  constructor
  · rw [resolveSort, resolveSortAux_some]
    simp
  · exact resolveSortAux_none headers 0 _

/-! ### URL builder -/

theorem foldl_if_append {α : Type} (p : α → Bool) (seg : α → String) :
    ∀ (l : List α) (init : String),
      l.foldl (fun url f => if p f then url ++ seg f else url) init
        = init ++ strConcat ((l.filter p).map seg) := by
  intro l
  induction l with
  | nil => intro init; simp [strConcat]
  | cons a t ih =>
      intro init
      by_cases hp : p a = true
      · simp only [List.foldl_cons, hp, if_true, List.filter_cons, List.map_cons]
        rw [ih, strConcat, String.append_assoc]
      · simp only [List.foldl_cons, hp, if_false, List.filter_cons,
          Bool.false_eq_true]
        rw [ih]

theorem foldl_append_map (render : String → String) :
    ∀ (l : List String) (init : String),
      l.foldl (fun url t => url ++ render t) init
        = init ++ strConcat (l.map render) := by
  intro l
  induction l with
  | nil => intro init; simp [strConcat]
  | cons a t ih =>
      intro init
      simp only [List.foldl_cons, List.map_cons]
      rw [ih, strConcat, String.append_assoc]

/-- C4 counterexample: the claim normalizes the base URL "to exactly one
trailing slash", but the source only appends a slash when the last
character is not one — it never collapses an existing run of slashes.
With `data-source = "https://x/r//"` the built URL keeps both slashes
and differs from the claim's reading. -/
theorem submitUrl_not_exactly_one_slash :
    wsSubmitUrl "https://x/r//" [("year", "2020")] "table_year"
        ≠ specFetchUrlStrict "https://x/r//" [("year", "2020")] "table_year"
      ∧ wsSubmitUrl "https://x/r//" [("year", "2020")] "table_year"
        = "https://x/r//year:2020/table_2020.xls" := by
  constructor
  · decide
  · decide

/-- C4 (amended): for every form submission in which no non-word-like
template token (a separator chunk or an empty boundary chunk of the
split) happens to name a form field, the fetch URL is the base URL with
a trailing slash appended when missing, followed by one sanitized
`name:value/` segment per field in form order — fields with empty
values or names starting with an underscore contributing no segment at
all — followed by the filename template with each word-like token
replaced by the matching field's sanitized value, plus the `.xls`
suffix; in particular the claim's own example holds: fields
`year = "2020"`, `_debug = "x"` with `data-source = "https://x/r"` and
template `"table_year"` yield exactly
`"https://x/r/year:2020/table_2020.xls"`. -/
theorem submitUrl_matches_spec_amended :
    (∀ (base : String) (fields : List (String × String)) (fmt : String),
        (∀ t ∈ splitFormat fmt,
          isWordLike t = false → lookupLast fields t = none) →
        wsSubmitUrl base fields fmt = specFetchUrl base fields fmt)
      ∧ wsSubmitUrl "https://x/r" [("year", "2020"), ("_debug", "x")] "table_year"
          = "https://x/r/year:2020/table_2020.xls" := by
  constructor
  · intro base fields fmt H
    have hmap : (splitFormat fmt).map (wsRenderToken fields)
        = (splitFormat fmt).map (specRenderToken fields) := by
      apply List.map_congr_left
      intro t ht
      by_cases hw : isWordLike t = true
      · simp [wsRenderToken, specRenderToken, hw]
      · have hw' : isWordLike t = false := by
          simpa using hw
        have hnone := H t ht hw'
        simp [wsRenderToken, specRenderToken, hw', hnone]
    simp only [wsSubmitUrl, wsBuildUrl, specFetchUrl]
    rw [foldl_if_append, foldl_append_map, hmap]
  · decide

/-- Witness for `submitUrl_matches_spec_amended` at the claim's concrete
example (where the only non-word-like tokens are `"_"`, which names no
field). -/
theorem submitUrl_matches_spec_amended_witness :
    (∀ t ∈ splitFormat "table_year",
        isWordLike t = false
          → lookupLast [("year", "2020"), ("_debug", "x")] t = none)
      ∧ wsSubmitUrl "https://x/r" [("year", "2020"), ("_debug", "x")] "table_year"
          = specFetchUrl "https://x/r" [("year", "2020"), ("_debug", "x")]
              "table_year" :=
  ⟨by decide,
    submitUrl_matches_spec_amended.1 "https://x/r"
      [("year", "2020"), ("_debug", "x")] "table_year" (by decide)⟩

end Websheet
